import Mathlib

/-!
Verification of the uqbar IoC container (`src/index.js`) against its
natural-language specification.

The JavaScript code is shallowly embedded: JS values become the inductive
`Value` (with object identity modelled by `Value.vobj` ids), the three `Map`
fields of a `Container` become association lists, and the stored
`AsyncFactory` closures (all of which call their completion callback exactly
once, synchronously, in this single-threaded cooperative model) become the
deep-embedded `Registration` describing which wrapper produced them, with the
user-supplied factory bodies kept as Lean functions `List Value → Except Value
Value`.  The resolver is a fuel-indexed function (a dependency cycle, which the
source does not detect, exhausts the fuel).  Resolution outcomes distinguish a
callback success, a callback error, and an exception thrown through the
callback chain (the source has no try/catch), and are instrumented with
observational logs: the user-factory invocations (with the argument values
supplied), the instance-cache writes, and the successful single-name
completions.
-/

namespace Uqbar

/-- JavaScript runtime values.  `vobj id` models reference identity of objects;
`verr msg` models `new Error(msg)`; `varr` models arrays. -/
inductive Value where
  | vundef
  | vnull
  | vbool (b : Bool)
  | vnum (n : Int)
  | vstr (s : String)
  | verr (msg : String)
  | varr (vs : List Value)
  | vobj (id : Nat)

/-- The `typeof instance === 'undefined'` test (line 143). -/
def isUndef : Value → Bool
  | .vundef => true
  | _ => false

/-- JavaScript truthiness, as used by `if (instance)` on line 218 of
`src/index.js`. -/
def truthy : Value → Bool
  | .vundef => false
  | .vnull => false
  | .vbool b => b
  | .vnum n => n != 0
  | .vstr s => s != ""
  | .verr _ => true
  | .varr _ => true
  | .vobj _ => true

/-- The `Map.prototype.get` operation: the value bound to key `k`, if any. -/
def aget {α : Type} (m : List (String × α)) (k : String) : Option α :=
  (m.find? fun p => p.1 == k).map (·.2)

/-- The `Map.prototype.set` operation: replace the binding of `k` in place,
or append a new
binding at the end. -/
def aset {α : Type} (m : List (String × α)) (k : String) (v : α) :
    List (String × α) :=
  match m with
  | [] => [(k, v)]
  | p :: rest => if p.1 == k then (k, v) :: rest else p :: aset rest k v

/-- A JavaScript function as passed to the registration operations: its formal
parameter names (what `get-parameter-names` reports), its optional
dependency-declaration attribute (the `'@require'` property), and its
behaviour: applied to the dependency values it receives, it either produces a
value or fails with a thrown exception / callback-reported error (which of the
two applies is determined by the registration variant interpreting it). -/
structure JsFunction where
  params : List String
  require : Option (List String) := none
  body : List Value → Except Value Value

/-- Source `getDependenciesNames(func, ignoreLastArg)`, lines 8-18 of
`src/index.js`:
the `'@require'` list verbatim when present, otherwise the formal parameter
names, dropping the last one when `ignoreLastArg` is set. -/
def getDependenciesNames (func : JsFunction) (ignoreLastArg : Bool) :
    List String :=
  match func.require with
  | some reqs => reqs
  | none => if ignoreLastArg then func.params.dropLast else func.params

/-- The options argument of the registration operations; `none` fields are
absent properties, so `xtend` keeps the default. -/
structure Options where
  singleton : Option Bool := none
  interfaces : Option (List String) := none

/-- The merged registration configuration.  `default_register_options` is
`{ singleton: true }` (line 30); `config.interfaces` is absent by default,
modelled as `[]`, which `_addInterfaceMapping` treats identically. -/
structure Config where
  singleton : Bool
  interfaces : List String

/-- The merge `xtend(default_register_options, options)` with an absent or
partial options object (lines 56, 85, 116, 147). -/
def xtendConfig (options : Options) : Config :=
  ⟨options.singleton.getD true, options.interfaces.getD []⟩

/-- The normalized `AsyncFactory` stored in the registry, deep-embedded by the
wrapper that produced it:
* `rAsync1`   — `register` with `factory.length === 1`: the factory stored
  directly (line 58); invoked with only the callback, so its body receives no
  dependency values, and its `Except` outcome is what it passes to the
  callback;
* `rAsyncDeps` — `register` with `factory.length ≥ 2`: the wrapper calling
  `this.call(factory, callback)` (lines 58-60); the body outcome is what the
  factory passes to the callback;
* `rSync`     — `registerSync`'s wrapper calling `this.callSync` (lines
  87-89); a body `.error` is a thrown exception (the source has no try/catch);
* `rCtor`     — `registerCtor`'s wrapper calling `this.callCtor` (lines
  118-120); as for `rSync`;
* `rInstance` — `registerInstance`'s wrapper `(callback) => callback(null,
  instance)` (lines 149-151). -/
inductive Registration where
  | rAsync1 (body : List Value → Except Value Value)
  | rAsyncDeps (deps : List String) (body : List Value → Except Value Value)
  | rSync (deps : List String) (body : List Value → Except Value Value)
  | rCtor (deps : List String) (body : List Value → Except Value Value)
  | rInstance (v : Value)

/-- A registry record `{ factory, config }` (lines 62, 91, 122, 153). -/
structure RegRecord where
  factory : Registration
  config : Config

/-- The container state: the three `Map`s created in the constructor
(lines 20-28): `_registry`, `_instances` and `_interfaces`. -/
structure Container where
  registry : List (String × RegRecord)
  instances : List (String × Value)
  interfaces : List (String × List String)

/-- The state of `new Container()` with no guywire argument. -/
def Container.empty : Container := ⟨[], [], []⟩

/-- Source `Container.prototype._addInterfaceMapping` (lines 159-166): append
`name`
to the implementation list of each declared interface tag. -/
def Container.addInterfaceMapping (c : Container) (name : String)
    (ifaces : List String) : Container :=
  if ifaces.length > 0 then
    ifaces.foldl (fun acc i =>
      { acc with
        interfaces := aset acc.interfaces i
          ((aget acc.interfaces i).getD [] ++ [name]) }) c
  else c

/-- Source `Container.prototype.register` (lines 43-65).  A synchronous
validation
failure is the `Except.error`; the model's argument is always a function, so
the `typeof factory !== 'function'` check cannot fire. -/
def Container.register (c : Container) (name : String) (factory : JsFunction)
    (options : Options) : Except Value Container :=
  if name = "" then .error (.verr "name is required")
  else if factory.params.length = 0 then
    .error (.verr "the factory function needs at least 1 argument (callback)")
  else
    let config := xtendConfig options
    let asyncFactory : Registration :=
      if factory.params.length = 1 then .rAsync1 factory.body
      else .rAsyncDeps (getDependenciesNames factory true) factory.body
    .ok (Container.addInterfaceMapping
      { c with registry := aset c.registry name ⟨asyncFactory, config⟩ }
      name config.interfaces)

/-- Source `Container.prototype.registerSync` (lines 76-94).  `callSync`
computes
`getDependenciesNames(factory)` with `ignoreLastArg` absent, hence `false`. -/
def Container.registerSync (c : Container) (name : String)
    (factory : JsFunction) (options : Options) : Except Value Container :=
  if name = "" then .error (.verr "name is required")
  else
    let config := xtendConfig options
    let asyncFactory :=
      Registration.rSync (getDependenciesNames factory false) factory.body
    .ok (Container.addInterfaceMapping
      { c with registry := aset c.registry name ⟨asyncFactory, config⟩ }
      name config.interfaces)

/-- Source `Container.prototype.registerCtor` (lines 107-125). -/
def Container.registerCtor (c : Container) (name : String)
    (factory : JsFunction) (options : Options) : Except Value Container :=
  if name = "" then .error (.verr "name is required")
  else
    let config := xtendConfig options
    let asyncFactory :=
      Registration.rCtor (getDependenciesNames factory false) factory.body
    .ok (Container.addInterfaceMapping
      { c with registry := aset c.registry name ⟨asyncFactory, config⟩ }
      name config.interfaces)

/-- Source `Container.prototype.registerInstance` (lines 138-156).  Only an
`undefined` instance is rejected (`typeof instance === 'undefined'`). -/
def Container.registerInstance (c : Container) (name : String) (inst : Value)
    (options : Options) : Except Value Container :=
  if name = "" then .error (.verr "name is required")
  else if isUndef inst then .error (.verr "instance is required")
  else
    let config := xtendConfig options
    .ok (Container.addInterfaceMapping
      { c with
        registry := aset c.registry name ⟨.rInstance inst, config⟩ }
      name config.interfaces)

/-- Outcome of a single resolution: the completion callback got a success or
an error, or an exception escaped uncaught through the callback chain (so the
callback was never invoked with the failure). -/
inductive Res where
  | ok (v : Value)
  | err (e : Value)
  | thrown (e : Value)

/-- Result of one `resolve` call: the outcome, whether the completion was
deferred by at least one scheduling step (`setImmediate`) rather than invoked
before `resolve` returned, the post-state, and the observational logs:
`fcalls` records each user-factory invocation as (registered name, dependency
values supplied), `writes` each instance-cache write, `succs` each successful
single-name completion. -/
structure ROut where
  res : Res
  deferred : Bool
  c : Container
  fcalls : List (String × List Value)
  writes : List (String × Value)
  succs : List (String × Value)

/-- Outcome of an `async.map` over a list of names. -/
inductive LRes where
  | ok (vs : List Value)
  | err (e : Value)
  | thrown (e : Value)

/-- Result of an `async.map` over a list of names, with the same logs as
`ROut`. -/
structure LOut where
  res : LRes
  deferred : Bool
  c : Container
  fcalls : List (String × List Value)
  writes : List (String × Value)
  succs : List (String × Value)

/-- The dispatch `async.map(names, this.resolve.bind(this), callback)`
(lines 198-200,
207-209), with each element resolution performed by `resOne`.  All factories
in this model invoke their callbacks synchronously, so the iteratees run
sequentially in input order and the result array is positionally aligned with
the input.  After an element reports an error, `async.map` has already fired
the final callback with that first error but still dispatches the remaining
iteratees (their results are discarded, their side effects happen); a
synchronously thrown exception aborts the dispatch loop and propagates. -/
def resolveListWith (resOne : Container → String → Option ROut) :
    Container → List String → Option LOut
  | c, [] => some ⟨.ok [], false, c, [], [], []⟩
  | c, n :: ns =>
    match resOne c n with
    | none => none
    | some o =>
      match o.res with
      | .thrown e =>
        some ⟨.thrown e, o.deferred, o.c, o.fcalls, o.writes, o.succs⟩
      | .err e =>
        match resolveListWith resOne o.c ns with
        | none => none
        | some rest =>
          match rest.res with
          | .thrown e2 =>
            some ⟨.thrown e2, o.deferred || rest.deferred, rest.c,
              o.fcalls ++ rest.fcalls, o.writes ++ rest.writes,
              o.succs ++ rest.succs⟩
          | _ =>
            some ⟨.err e, o.deferred || rest.deferred, rest.c,
              o.fcalls ++ rest.fcalls, o.writes ++ rest.writes,
              o.succs ++ rest.succs⟩
      | .ok v =>
        match resolveListWith resOne o.c ns with
        | none => none
        | some rest =>
          match rest.res with
          | .ok vs =>
            some ⟨.ok (v :: vs), o.deferred || rest.deferred, rest.c,
              o.fcalls ++ rest.fcalls, o.writes ++ rest.writes,
              o.succs ++ rest.succs⟩
          | .err e =>
            some ⟨.err e, o.deferred || rest.deferred, rest.c,
              o.fcalls ++ rest.fcalls, o.writes ++ rest.writes,
              o.succs ++ rest.succs⟩
          | .thrown e =>
            some ⟨.thrown e, o.deferred || rest.deferred, rest.c,
              o.fcalls ++ rest.fcalls, o.writes ++ rest.writes,
              o.succs ++ rest.succs⟩

/-- The completion callback handed to the stored `AsyncFactory`
(lines 223-231): on error, pass it on; on success, write the instance cache
when the registration is a singleton, then signal success. -/
def finishFactory (name : String) (config : Config) (c : Container) :
    Except Value Value →
      Res × Container × List (String × Value) × List (String × Value)
  | .error e => (.err e, c, [], [])
  | .ok v =>
    if config.singleton then
      (.ok v, { c with instances := aset c.instances name v },
        [(name, v)], [(name, v)])
    else
      (.ok v, c, [], [(name, v)])

/-- Continuation of `call` / `callSync` / `callCtor` (lines 168-191) after the
dependency resolution `d`: a dependency error is passed to the callback
without invoking the factory; on success the user factory is invoked with the
resolved services.  When `raises` is set (the synchronous kinds), a failing
body is an uncaught throw; otherwise it is the error the factory reported
through its callback. -/
def afterDeps (name : String) (config : Config) (d : LOut)
    (body : List Value → Except Value Value) (raises : Bool) : ROut :=
  match d.res with
  | .err e => ⟨.err e, d.deferred, d.c, d.fcalls, d.writes, d.succs⟩
  | .thrown e => ⟨.thrown e, d.deferred, d.c, d.fcalls, d.writes, d.succs⟩
  | .ok services =>
    match body services, raises with
    | .error e, true =>
      ⟨.thrown e, d.deferred, d.c, d.fcalls ++ [(name, services)],
        d.writes, d.succs⟩
    | .error e, false =>
      ⟨.err e, d.deferred, d.c, d.fcalls ++ [(name, services)],
        d.writes, d.succs⟩
    | .ok v, _ =>
      let fin := finishFactory name config d.c (.ok v)
      ⟨fin.1, d.deferred, fin.2.1, d.fcalls ++ [(name, services)],
        d.writes ++ fin.2.2.1, d.succs ++ fin.2.2.2⟩

/-- Invocation of the stored `AsyncFactory` with the caching completion
callback of lines 223-231, reached after a singleton-cache miss. -/
def invokeFactory (resOne : Container → String → Option ROut)
    (c : Container) (name : String) (r : RegRecord) : Option ROut :=
  match r.factory with
  | .rInstance v =>
    let fin := finishFactory name r.config c (.ok v)
    some ⟨fin.1, false, fin.2.1, [], fin.2.2.1, fin.2.2.2⟩
  | .rAsync1 body =>
    let fin := finishFactory name r.config c (body [])
    some ⟨fin.1, false, fin.2.1, [(name, [])], fin.2.2.1, fin.2.2.2⟩
  | .rAsyncDeps deps body =>
    (resolveListWith resOne c deps).map fun d =>
      afterDeps name r.config d body false
  | .rSync deps body =>
    (resolveListWith resOne c deps).map fun d =>
      afterDeps name r.config d body true
  | .rCtor deps body =>
    (resolveListWith resOne c deps).map fun d =>
      afterDeps name r.config d body true

/-- The singleton cache check of lines 215-221: a `some` result is the cached
instance served directly.  Note the JS truthiness test `if (instance)`: a
cached falsy value is treated as a miss. -/
def cacheHit (c : Container) (name : String) (r : RegRecord) : Option Value :=
  if r.config.singleton then
    match aget c.instances name with
    | some inst => if truthy inst then some inst else none
    | none => none
  else none

/-- The registered-name branch of `resolve` (lines 215-231): the singleton
cache check, then the invocation of the stored `AsyncFactory`. -/
def resolveRegistered (resOne : Container → String → Option ROut)
    (c : Container) (name : String) (r : RegRecord) : Option ROut :=
  match cacheHit c name r with
  | some inst => some ⟨.ok inst, false, c, [], [], [(name, inst)]⟩
  | none => invokeFactory resOne c name r

/-- The asynchronous unknown-name failure
`setImmediate(callback, new Error(...))` (line 212): the completion is
deferred one scheduling step and carries the error naming the identifier. -/
def unknownOut (c : Container) (name : String) : ROut :=
  ⟨.err (.verr ("unknown service or interface " ++ name)), true, c,
    [], [], []⟩

/-- Repackage an `async.map` result as the result of the enclosing `resolve`
call: a successful interface or list resolution always delivers an array. -/
def loutToROut (l : LOut) : ROut :=
  ⟨match l.res with
    | .ok vs => .ok (.varr vs)
    | .err e => .err e
    | .thrown e => .thrown e,
    l.deferred, l.c, l.fcalls, l.writes, l.succs⟩

/-- Single-name `resolve` (lines 193-232), fuel-indexed: registry lookup
first; otherwise the interface index with a non-empty implementation list is
resolved as a group; otherwise the deferred unknown-name error.  `none` means
the fuel ran out (an undetected dependency cycle). -/
def resolveOneFuel : Nat → Container → String → Option ROut
  | 0, _, _ => none
  | fuel + 1, c, name =>
    match aget c.registry name with
    | some r =>
      resolveRegistered (fun c2 n2 => resolveOneFuel fuel c2 n2) c name r
    | none =>
      match aget c.interfaces name with
      | some impls =>
        if impls.length > 0 then
          (resolveListWith (fun c2 n2 => resolveOneFuel fuel c2 n2) c
            impls).map loutToROut
        else some (unknownOut c name)
      | none => some (unknownOut c name)

/-- The argument shapes accepted by `resolve`. -/
inductive NameOrNames where
  | one (n : String)
  | many (ns : List String)

/-- Source `Container.prototype.resolve` (lines 193-232): polymorphic over a
single
name or an array of names. -/
def Container.resolve (fuel : Nat) (c : Container) : NameOrNames → Option ROut
  | .one n => resolveOneFuel fuel c n
  | .many ns =>
    (resolveListWith (fun c2 n2 => resolveOneFuel fuel c2 n2) c ns).map
      loutToROut

/-- Unwrap a successful registration; used only to build concrete containers
for witnesses and counterexamples. -/
def orEmpty : Except Value Container → Container
  | .ok c => c
  | .error _ => Container.empty

/-! ### Map lemmas -/

theorem aget_aset_self {α : Type} (m : List (String × α)) (k : String)
    (v : α) : aget (aset m k v) k = some v := by
  induction m with
  | nil => simp [aget, aset]
  | cons p rest ih =>
    by_cases h : p.1 = k
    · simp [aget, aset, h]
    · simp only [aset, beq_iff_eq, h, if_false]
      simpa [aget, h] using ih

theorem aget_aset_ne {α : Type} (m : List (String × α)) (k k' : String)
    (v : α) (h : k' ≠ k) : aget (aset m k v) k' = aget m k' := by
  induction m with
  | nil => simp [aget, aset, Ne.symm h]
  | cons p rest ih =>
    by_cases hp : p.1 = k
    · simp [aget, aset, hp, h, Ne.symm h]
    · by_cases hp' : p.1 = k'
      · simp [aget, aset, hp, hp', h]
      · simp only [aset, beq_iff_eq, hp, if_false]
        simpa [aget, hp'] using ih

/-! ### `_addInterfaceMapping` only touches the interface index -/

theorem interfacesFold_registry (name : String) :
    ∀ (ifaces : List String) (c : Container),
      (ifaces.foldl (fun acc i =>
        { acc with
          interfaces := aset acc.interfaces i
            ((aget acc.interfaces i).getD [] ++ [name]) }) c).registry =
        c.registry := by
  intro ifaces
  induction ifaces with
  | nil => intro c; rfl
  | cons i rest ih => intro c; exact ih _

theorem interfacesFold_instances (name : String) :
    ∀ (ifaces : List String) (c : Container),
      (ifaces.foldl (fun acc i =>
        { acc with
          interfaces := aset acc.interfaces i
            ((aget acc.interfaces i).getD [] ++ [name]) }) c).instances =
        c.instances := by
  intro ifaces
  induction ifaces with
  | nil => intro c; rfl
  | cons i rest ih => intro c; exact ih _

theorem addInterfaceMapping_registry (c : Container) (name : String)
    (ifaces : List String) :
    (Container.addInterfaceMapping c name ifaces).registry = c.registry := by
  unfold Container.addInterfaceMapping
  split
  · exact interfacesFold_registry name ifaces c
  · rfl

theorem addInterfaceMapping_instances (c : Container) (name : String)
    (ifaces : List String) :
    (Container.addInterfaceMapping c name ifaces).instances = c.instances := by
  unfold Container.addInterfaceMapping
  split
  · exact interfacesFold_instances name ifaces c
  · rfl

theorem addInterfaceMapping_single (c : Container) (name tag : String) :
    aget (Container.addInterfaceMapping c name [tag]).interfaces tag =
      some ((aget c.interfaces tag).getD [] ++ [name]) := by
  simp [Container.addInterfaceMapping, aget_aset_self]

/-! ### Sequential successful resolution of a list of names -/

/-- The names `ns` resolve successfully one after another starting from `c`,
producing the values `vs` in order and the final state `cend`. -/
inductive ResolvesAll (f : Nat) :
    Container → List String → List Value → Container → Prop where
  | nil {c : Container} : ResolvesAll f c [] [] c
  | cons {c : Container} {n : String} {ns : List String} {o : ROut}
      {v : Value} {vs : List Value} {cend : Container} :
      resolveOneFuel f c n = some o → o.res = Res.ok v →
      ResolvesAll f o.c ns vs cend → ResolvesAll f c (n :: ns) (v :: vs) cend

theorem resolvesAll_length {f : Nat} :
    ∀ {c : Container} {ns : List String} {vs : List Value} {cend : Container},
      ResolvesAll f c ns vs cend → vs.length = ns.length := by
  intro c ns vs cend h
  induction h with
  | nil => rfl
  | cons _ _ _ ih => simpa using ih

theorem resolveList_of_resolvesAll {f : Nat} :
    ∀ {c : Container} {ns : List String} {vs : List Value} {cend : Container},
      ResolvesAll f c ns vs cend →
      ∃ l, resolveListWith (fun c2 n2 => resolveOneFuel f c2 n2) c ns =
          some l ∧ l.res = LRes.ok vs ∧ l.c = cend := by
  intro c ns vs cend h
  induction h with
  | nil => exact ⟨_, rfl, rfl, rfl⟩
  | @cons c n ns o v vs cend h1 h2 h3 ih =>
    obtain ⟨l, hl, hres, hc⟩ := ih
    refine ⟨⟨.ok (v :: vs), o.deferred || l.deferred, l.c,
      o.fcalls ++ l.fcalls, o.writes ++ l.writes, o.succs ++ l.succs⟩,
      ?_, rfl, hc⟩
    simp only [resolveListWith, h1, h2, hl, hres]

/-! ### Cache-miss and `registerInstance` resolution lemmas -/

theorem resolveRegistered_of_no_cache
    (resOne : Container → String → Option ROut) (c : Container)
    (name : String) (r : RegRecord)
    (hcache : aget c.instances name = none) :
    resolveRegistered resOne c name r = invokeFactory resOne c name r := by
  unfold resolveRegistered cacheHit
  cases hs : r.config.singleton <;> simp [hs, hcache]

theorem resolveRegistered_instance_ok
    (resOne : Container → String → Option ROut) (c : Container)
    (name : String) (v : Value) (config : Config)
    (hcache : aget c.instances name = none ∨ aget c.instances name = some v) :
    ∃ out, resolveRegistered resOne c name ⟨.rInstance v, config⟩ = some out ∧
      out.res = Res.ok v ∧ out.c.registry = c.registry ∧
      out.c.interfaces = c.interfaces ∧
      (aget out.c.instances name = none ∨
        aget out.c.instances name = some v) := by
  cases hs : config.singleton with
  | false =>
    refine ⟨⟨Res.ok v, false, c, [], [], [(name, v)]⟩, ?_, rfl, rfl, rfl,
      hcache⟩
    unfold resolveRegistered cacheHit invokeFactory finishFactory
    simp [hs]
  | true =>
    rcases hcache with hnone | hsome
    · refine ⟨⟨Res.ok v, false,
        { c with instances := aset c.instances name v }, [],
        [(name, v)], [(name, v)]⟩, ?_, rfl, rfl, rfl,
        Or.inr (aget_aset_self _ _ _)⟩
      unfold resolveRegistered cacheHit invokeFactory finishFactory
      simp [hs, hnone]
    · cases ht : truthy v with
      | true =>
        refine ⟨⟨Res.ok v, false, c, [], [], [(name, v)]⟩, ?_, rfl, rfl, rfl,
          Or.inr hsome⟩
        unfold resolveRegistered cacheHit
        simp [hs, hsome, ht]
      | false =>
        refine ⟨⟨Res.ok v, false,
          { c with instances := aset c.instances name v }, [],
          [(name, v)], [(name, v)]⟩, ?_, rfl, rfl, rfl,
          Or.inr (aget_aset_self _ _ _)⟩
        unfold resolveRegistered cacheHit invokeFactory finishFactory
        simp [hs, hsome, ht]

/-! ### C4 — unknown names fail asynchronously -/

/-- C4: resolving a name absent from both the registry and the interface
index invokes the callback with exactly the error naming the missing
identifier, and the completion is deferred one scheduling step
(`setImmediate`), never synchronous; the container is left untouched. -/
theorem C4_unknown_name_deferred (f : Nat) (c : Container) (name : String)
    (hreg : aget c.registry name = none)
    (hif : aget c.interfaces name = none) :
    Container.resolve (f + 1) c (.one name) =
      some ⟨Res.err (.verr ("unknown service or interface " ++ name)), true,
        c, [], [], []⟩ := by
  simp [Container.resolve, resolveOneFuel, hreg, hif, unknownOut]

/-- Witness for C4: resolving `"db"` in the empty container. -/
theorem C4_witness :
    Container.resolve 1 Container.empty (.one "db") =
      some ⟨Res.err (.verr "unknown service or interface db"), true,
        Container.empty, [], [], []⟩ :=
  C4_unknown_name_deferred 0 Container.empty "db" rfl rfl

/-! ### C5 — list resolution is positionally aligned -/

/-- C5: when every element of a list of names resolves successfully (in
sequence, which is the execution order of this single-threaded cooperative
model), resolving the list succeeds with exactly the list of the elements'
values, positionally aligned with the input and of the same length. -/
theorem C5_list_positional (f : Nat) (c cend : Container) (ns : List String)
    (vs : List Value) (h : ResolvesAll f c ns vs cend) :
    ∃ out, Container.resolve f c (.many ns) = some out ∧
      out.res = Res.ok (.varr vs) ∧ vs.length = ns.length ∧ out.c = cend := by
  obtain ⟨l, hl, hres, hc⟩ := resolveList_of_resolvesAll h
  refine ⟨loutToROut l, ?_, ?_, resolvesAll_length h, hc⟩
  · simp [Container.resolve, hl]
  · simp [loutToROut, hres]

/-- Concrete container for the C5 witness: two transient instances. -/
def listPairContainer : Container :=
  orEmpty (Container.registerInstance
    (orEmpty (Container.registerInstance Container.empty "a" (.vnum 1)
      ⟨some false, none⟩))
    "b" (.vnum 2) ⟨some false, none⟩)

/-- Witness for C5: resolving `["a", "b"]` yields `[1, 2]` in input order. -/
theorem C5_witness :
    ∃ out, Container.resolve 1 listPairContainer (.many ["a", "b"]) =
        some out ∧
      out.res = Res.ok (.varr [.vnum 1, .vnum 2]) ∧
      ([Value.vnum 1, Value.vnum 2] : List Value).length =
        (["a", "b"] : List String).length ∧
      out.c = listPairContainer :=
  C5_list_positional 1 listPairContainer listPairContainer ["a", "b"]
    [.vnum 1, .vnum 2]
    (ResolvesAll.cons rfl rfl (ResolvesAll.cons rfl rfl ResolvesAll.nil))

/-! ### C6 — interface resolution always yields an array -/

/-- C6: a name absent from the registry but mapped by the interface index to
a non-empty implementation list resolves to the array of the implementations'
resolved values in index order — always an array, never a bare value, even
for a single implementation — and `_addInterfaceMapping` appends each newly
registered implementation at the end of its interface's list (registration
order). -/
theorem C6_interface_always_array (f : Nat) (c cend : Container)
    (name : String) (impls : List String) (vs : List Value)
    (hreg : aget c.registry name = none)
    (hif : aget c.interfaces name = some impls)
    (hne : impls ≠ [])
    (hall : ResolvesAll f c impls vs cend) :
    (∃ out, Container.resolve (f + 1) c (.one name) = some out ∧
      out.res = Res.ok (.varr vs) ∧ out.c = cend) ∧
    ∀ (c2 : Container) (nm tag : String),
      aget (Container.addInterfaceMapping c2 nm [tag]).interfaces tag =
        some ((aget c2.interfaces tag).getD [] ++ [nm]) := by
  constructor
  · obtain ⟨l, hl, hres, hc⟩ := resolveList_of_resolvesAll hall
    refine ⟨loutToROut l, ?_, ?_, hc⟩
    · have hlen : impls.length > 0 := List.length_pos.mpr hne
      simp [Container.resolve, resolveOneFuel, hreg, hif, hlen, hl]
    · simp [loutToROut, hres]
  · intro c2 nm tag
    exact addInterfaceMapping_single c2 nm tag

/-- Concrete container for the C6 witness: a single implementation `"x"` of
interface `"iface"`. -/
def singleImplContainer : Container :=
  orEmpty (Container.registerInstance Container.empty "x" (.vnum 5)
    ⟨some false, some ["iface"]⟩)

/-- Witness for C6: one registered implementation still resolves to a
one-element array, not a bare value. -/
theorem C6_witness :
    (∃ out, Container.resolve 2 singleImplContainer (.one "iface") =
        some out ∧
      out.res = Res.ok (.varr [.vnum 5]) ∧ out.c = singleImplContainer) ∧
    ∀ (c2 : Container) (nm tag : String),
      aget (Container.addInterfaceMapping c2 nm [tag]).interfaces tag =
        some ((aget c2.interfaces tag).getD [] ++ [nm]) :=
  C6_interface_always_array 1 singleImplContainer singleImplContainer "iface"
    ["x"] [.vnum 5] rfl rfl (by simp)
    (ResolvesAll.cons rfl rfl ResolvesAll.nil)

/-! ### C7 — `registerInstance` always yields the stored reference -/

/-- C7: a name whose registration is `registerInstance` with value `v` (and
whose cache holds no foreign value for that name — true whenever that was the
name's only registration) resolves successfully to exactly `v`, whatever the
singleton/transient configuration, and the resulting state satisfies the same
precondition, so every later sequential call again yields exactly `v`. -/
theorem C7_instance_same_reference (f : Nat) (c : Container) (name : String)
    (v : Value) (config : Config)
    (hreg : aget c.registry name = some ⟨.rInstance v, config⟩)
    (hcache : aget c.instances name = none ∨ aget c.instances name = some v) :
    ∃ out, Container.resolve (f + 1) c (.one name) = some out ∧
      out.res = Res.ok v ∧
      aget out.c.registry name = some ⟨Registration.rInstance v, config⟩ ∧
      (aget out.c.instances name = none ∨
        aget out.c.instances name = some v) := by
  obtain ⟨out, hout, hres, hregp, _, hcachep⟩ :=
    resolveRegistered_instance_ok (fun c2 n2 => resolveOneFuel f c2 n2)
      c name v config hcache
  refine ⟨out, ?_, hres, ?_, hcachep⟩
  · simp [Container.resolve, resolveOneFuel, hreg, hout]
  · rw [hregp]; exact hreg

/-- Concrete container for the C7 witness: `"s"` registered as the object
reference `vobj 1` under the default (singleton) configuration. -/
def storedInstanceContainer : Container :=
  orEmpty (Container.registerInstance Container.empty "s" (.vobj 1)
    ⟨none, none⟩)

/-- Witness for C7 at a concrete container. -/
theorem C7_witness :
    ∃ out, Container.resolve 1 storedInstanceContainer (.one "s") =
        some out ∧
      out.res = Res.ok (.vobj 1) ∧
      aget out.c.registry "s" =
        some ⟨Registration.rInstance (.vobj 1), xtendConfig ⟨none, none⟩⟩ ∧
      (aget out.c.instances "s" = none ∨
        aget out.c.instances "s" = some (.vobj 1)) :=
  C7_instance_same_reference 0 storedInstanceContainer "s" (.vobj 1)
    (xtendConfig ⟨none, none⟩) rfl (Or.inl rfl)

/-! ### C9 — `registerInstance` rejects exactly `undefined` -/

theorem registerInstance_ok (c : Container) (name : String) (v : Value)
    (opts : Options) (hn : name ≠ "") (hv : isUndef v = false) :
    ∃ c', Container.registerInstance c name v opts = .ok c' ∧
      aget c'.registry name =
        some ⟨Registration.rInstance v, xtendConfig opts⟩ ∧
      c'.instances = c.instances := by
  refine ⟨Container.addInterfaceMapping
    { c with
      registry := aset c.registry name
        ⟨Registration.rInstance v, xtendConfig opts⟩ }
    name (xtendConfig opts).interfaces, ?_, ?_, ?_⟩
  · simp [Container.registerInstance, hn, hv]
  · rw [addInterfaceMapping_registry]
    exact aget_aset_self _ _ _
  · rw [addInterfaceMapping_instances]

/-- C9: `registerInstance` fails synchronously with the "instance is
required" error exactly when the instance argument is `undefined`; every
other value — including `null`, `false`, `0` and `""` — is accepted, stored,
and a later resolution of the name succeeds with that very value. -/
theorem C9_undefined_only_rejected :
    (∀ (c : Container) (name : String) (opts : Options), name ≠ "" →
      Container.registerInstance c name .vundef opts =
        .error (.verr "instance is required")) ∧
    (∀ (c : Container) (name : String) (v : Value) (opts : Options),
      name ≠ "" → isUndef v = false → aget c.instances name = none →
      ∃ c', Container.registerInstance c name v opts = .ok c' ∧
        ∃ out, Container.resolve 1 c' (.one name) = some out ∧
          out.res = Res.ok v) := by
  constructor
  · intro c name opts hn
    simp [Container.registerInstance, hn, isUndef]
  · intro c name v opts hn hv hcache
    obtain ⟨c', h1, h2, h3⟩ := registerInstance_ok c name v opts hn hv
    obtain ⟨out, hout, hres, _, _, _⟩ :=
      resolveRegistered_instance_ok (fun c2 n2 => resolveOneFuel 0 c2 n2)
        c' name v (xtendConfig opts) (Or.inl (by rw [h3]; exact hcache))
    refine ⟨c', h1, out, ?_, hres⟩
    simp only [Container.resolve, resolveOneFuel, h2]
    exact hout

/-- Witness for C9: the rejection of `undefined` and the acceptance of the
falsy value `0`, which then resolves to `0`. -/
theorem C9_witness :
    (Container.registerInstance Container.empty "s" .vundef ⟨none, none⟩ =
      .error (.verr "instance is required")) ∧
    ∃ c', Container.registerInstance Container.empty "s" (.vnum 0)
        ⟨none, none⟩ = .ok c' ∧
      ∃ out, Container.resolve 1 c' (.one "s") = some out ∧
        out.res = Res.ok (.vnum 0) :=
  ⟨C9_undefined_only_rejected.1 Container.empty "s" ⟨none, none⟩
      (by simp),
    C9_undefined_only_rejected.2 Container.empty "s" (.vnum 0) ⟨none, none⟩
      (by simp) rfl rfl⟩

/-! ### C8 — re-registration is last-write-wins and keeps the cache -/

/-- C8: re-registering an already-registered name through any of the four
registration operations replaces that name's registry record with the newly
built one (last-write-wins) and leaves the instance cache exactly as it was —
in particular an already-cached singleton instance for the name survives. -/
theorem C8_reregistration_lww (c : Container) (name : String) (r0 : RegRecord)
    (_hprev : aget c.registry name = some r0) :
    (∀ (fn : JsFunction) (opts : Options) (c' : Container),
      Container.register c name fn opts = .ok c' →
      c'.instances = c.instances ∧
      aget c'.registry name = some ⟨(if fn.params.length = 1
          then Registration.rAsync1 fn.body
          else Registration.rAsyncDeps (getDependenciesNames fn true)
            fn.body), xtendConfig opts⟩) ∧
    (∀ (fn : JsFunction) (opts : Options) (c' : Container),
      Container.registerSync c name fn opts = .ok c' →
      c'.instances = c.instances ∧
      aget c'.registry name = some ⟨Registration.rSync
        (getDependenciesNames fn false) fn.body, xtendConfig opts⟩) ∧
    (∀ (fn : JsFunction) (opts : Options) (c' : Container),
      Container.registerCtor c name fn opts = .ok c' →
      c'.instances = c.instances ∧
      aget c'.registry name = some ⟨Registration.rCtor
        (getDependenciesNames fn false) fn.body, xtendConfig opts⟩) ∧
    (∀ (v : Value) (opts : Options) (c' : Container),
      Container.registerInstance c name v opts = .ok c' →
      c'.instances = c.instances ∧
      aget c'.registry name = some ⟨Registration.rInstance v,
        xtendConfig opts⟩) := by
  refine ⟨?_, ?_, ?_, ?_⟩
  · intro fn opts c' h
    by_cases hn : name = ""
    · simp [Container.register, hn] at h
    · by_cases hp : fn.params.length = 0
      · simp [Container.register, hn, hp] at h
      · simp [Container.register, hn, hp] at h
        subst h
        constructor
        · rw [addInterfaceMapping_instances]
        · rw [addInterfaceMapping_registry]
          exact aget_aset_self _ _ _
  · intro fn opts c' h
    by_cases hn : name = ""
    · simp [Container.registerSync, hn] at h
    · simp [Container.registerSync, hn] at h
      subst h
      constructor
      · rw [addInterfaceMapping_instances]
      · rw [addInterfaceMapping_registry]
        exact aget_aset_self _ _ _
  · intro fn opts c' h
    by_cases hn : name = ""
    · simp [Container.registerCtor, hn] at h
    · simp [Container.registerCtor, hn] at h
      subst h
      constructor
      · rw [addInterfaceMapping_instances]
      · rw [addInterfaceMapping_registry]
        exact aget_aset_self _ _ _
  · intro v opts c' h
    by_cases hn : name = ""
    · simp [Container.registerInstance, hn] at h
    · by_cases hv : isUndef v = true
      · simp [Container.registerInstance, hn, hv] at h
      · simp [Container.registerInstance, hn, hv] at h
        subst h
        constructor
        · rw [addInterfaceMapping_instances]
        · rw [addInterfaceMapping_registry]
          exact aget_aset_self _ _ _

/-- Container for the C8 witness: `"s"` first registered via
`registerSync`. -/
def reregisterBase : Container :=
  orEmpty (Container.registerSync Container.empty "s"
    ⟨[], none, fun _ => .ok (.vnum 1)⟩ ⟨none, none⟩)

/-- Witness for C8: re-registering `"s"` via `registerInstance` replaces the
record and leaves the instance cache as it was. -/
theorem C8_witness :
    ∃ c', Container.registerInstance reregisterBase "s" (.vnum 3)
        ⟨none, none⟩ = .ok c' ∧
      c'.instances = reregisterBase.instances ∧
      aget c'.registry "s" = some ⟨Registration.rInstance (.vnum 3),
        xtendConfig ⟨none, none⟩⟩ := by
  obtain ⟨c', h⟩ : ∃ c', Container.registerInstance reregisterBase "s"
      (.vnum 3) ⟨none, none⟩ = .ok c' := ⟨_, rfl⟩
  obtain ⟨h1, h2⟩ := (C8_reregistration_lww reregisterBase "s" _ rfl).2.2.2
    (.vnum 3) ⟨none, none⟩ c' h
  exact ⟨c', h, h1, h2⟩

/-! ### C1 — singleton at-most-once invocation: the falsy-value code bug -/

/-- C1's failing input: a singleton `registerSync` service whose factory
returns the falsy value 0. -/
def falsySingletonContainer : Container :=
  orEmpty (Container.registerSync Container.empty "s"
    ⟨[], none, fun _ => .ok (.vnum 0)⟩ ⟨none, none⟩)

/-- C1 (code bug, shown at the failing input): the first resolution of the
singleton `"s"` succeeds with 0 and writes 0 into the instance cache, yet the
second, strictly sequential resolution invokes the underlying factory again
(its `fcalls` log has an entry for `"s"`), because the cache check
`if (instance)` on line 218 treats the cached falsy value as absent.  The
claim — and the spec's at-most-once singleton contract — allow at most one
invocation across the two calls.  Both calls do return the identical value
0. -/
theorem C1_falsy_singleton_reinvoked :
    ∃ o1 o2,
      Container.resolve 2 falsySingletonContainer (.one "s") = some o1 ∧
      o1.res = Res.ok (.vnum 0) ∧ o1.fcalls = [("s", [])] ∧
      aget o1.c.instances "s" = some (.vnum 0) ∧
      Container.resolve 2 o1.c (.one "s") = some o2 ∧
      o2.res = Res.ok (.vnum 0) ∧ o2.fcalls = [("s", [])] :=
  ⟨_, _, rfl, rfl, rfl, rfl, rfl, rfl, rfl⟩

/-! ### C2 — a throwing synchronous factory is not delivered via callback -/

/-- Container whose `registerSync` factory throws `"boom"`. -/
def throwingSyncContainer : Container :=
  orEmpty (Container.registerSync Container.empty "s"
    ⟨[], none, fun _ => .error (.vstr "boom")⟩ ⟨none, none⟩)

/-- C2 counterexample: resolving a `registerSync` service whose factory
throws does not deliver the failure through the completion callback (for no
error value is the outcome a callback error); the exception escapes as an
uncaught throw. -/
theorem C2_counterexample :
    ∃ out, Container.resolve 2 throwingSyncContainer (.one "s") = some out ∧
      out.res = Res.thrown (.vstr "boom") ∧
      ∀ e, out.res ≠ Res.err e := by
  refine ⟨_, rfl, rfl, fun e h => ?_⟩
  exact Res.noConfusion h

/-- C2 amended: when the synchronous factory (or constructor) of a
`registerSync` / `registerCtor` service throws `e` (after its dependencies
resolved successfully and with no cached instance for the name), the
exception propagates synchronously through the resolution callback chain to
the resolve caller as an uncaught throw; the completion callback is never
invoked with the failure, and no instance is cached for the name (the state
and cache writes are exactly those of the dependency resolution). -/
theorem C2_sync_throw_propagates (f : Nat) (c : Container) (name : String)
    {deps : List String} {body : List Value → Except Value Value}
    {config : Config} {l : LOut} {services : List Value} {e : Value}
    (hreg : aget c.registry name = some ⟨.rSync deps body, config⟩ ∨
            aget c.registry name = some ⟨.rCtor deps body, config⟩)
    (hcache : aget c.instances name = none)
    (hdeps : resolveListWith (fun c2 n2 => resolveOneFuel f c2 n2) c deps =
      some l)
    (hok : l.res = LRes.ok services)
    (hthrow : body services = .error e) :
    ∃ out, Container.resolve (f + 1) c (.one name) = some out ∧
      out.res = Res.thrown e ∧ out.c = l.c ∧ out.writes = l.writes := by
  rcases hreg with hreg | hreg <;>
  · refine ⟨afterDeps name config l body true, ?_, ?_, ?_, ?_⟩
    · simp only [Container.resolve, resolveOneFuel, hreg]
      rw [resolveRegistered_of_no_cache _ _ _ _ hcache]
      simp [invokeFactory, hdeps]
    · simp [afterDeps, hok, hthrow]
    · simp [afterDeps, hok, hthrow]
    · simp [afterDeps, hok, hthrow]

/-- Witness for the amended C2 at the concrete throwing container. -/
theorem C2_witness :
    ∃ out, Container.resolve 1 throwingSyncContainer (.one "s") = some out ∧
      out.res = Res.thrown (.vstr "boom") ∧
      out.c = throwingSyncContainer ∧ out.writes = [] :=
  C2_sync_throw_propagates 0 throwingSyncContainer "s" (Or.inl rfl) rfl rfl
    rfl rfl

/-! ### C3 — the explicit dependency declaration and its one exception -/

/-- The factory invocation log entry of `afterDeps` always records the
dependency-resolution values as the arguments handed to the user factory. -/
theorem afterDeps_fcalls (name : String) (config : Config) (d : LOut)
    (body : List Value → Except Value Value) (raises : Bool)
    (services : List Value) (hok : d.res = LRes.ok services) :
    (afterDeps name config d body raises).fcalls =
      d.fcalls ++ [(name, services)] := by
  unfold afterDeps
  rw [hok]
  cases hb : body services <;> cases raises <;> simp [hb]

/-- Container for the C3 counterexample: `"a"` registered as the instance 7,
`"svc"` registered via `register` with a one-formal-parameter factory
carrying the dependency declaration `'@require': ['a']`. -/
def requireOneParamContainer : Container :=
  orEmpty (Container.register
    (orEmpty (Container.registerInstance Container.empty "a" (.vnum 7)
      ⟨none, none⟩))
    "svc" ⟨["callback"], some ["a"], fun args => .ok (.varr args)⟩
    ⟨none, none⟩)

/-- C3 counterexample: the claim requires the `@require`-carrying factory
registered via `register()` with exactly one formal parameter to be supplied
the resolved value of `"a"` (the list `[7]`); the code stores such a factory
directly as the AsyncFactory and invokes it with only the callback, supplying
no dependency values at all. -/
theorem C3_counterexample :
    ∃ out, Container.resolve 2 requireOneParamContainer (.one "svc") =
        some out ∧
      out.fcalls = [("svc", [])] ∧
      out.fcalls ≠ [("svc", [.vnum 7])] := by
  refine ⟨_, rfl, rfl, fun h => ?_⟩
  simp at h

/-- C3 amended: a factory carrying an explicit `'@require'` declaration has
that list used verbatim as its dependency names, ignoring its formal
parameter names, and at resolution the factory is invoked with exactly the
resolved values of that list in declared order — when registered via
`registerSync`, `registerCtor`, or `register` with at least two formal
parameters.  The exception forced by the counterexample: `register` with a
formal parameter count of exactly 1 stores the factory directly, ignoring
`'@require'`, and the factory receives only the callback, no dependency
values. -/
theorem C3_require_verbatim :
    (∀ (fn : JsFunction) (reqs : List String) (b : Bool),
      fn.require = some reqs → getDependenciesNames fn b = reqs) ∧
    (∀ (c : Container) (name : String) (fn : JsFunction) (opts : Options)
      (c' : Container) (reqs : List String), fn.require = some reqs →
      Container.registerSync c name fn opts = .ok c' →
      aget c'.registry name =
        some ⟨Registration.rSync reqs fn.body, xtendConfig opts⟩) ∧
    (∀ (c : Container) (name : String) (fn : JsFunction) (opts : Options)
      (c' : Container) (reqs : List String), fn.require = some reqs →
      Container.registerCtor c name fn opts = .ok c' →
      aget c'.registry name =
        some ⟨Registration.rCtor reqs fn.body, xtendConfig opts⟩) ∧
    (∀ (c : Container) (name : String) (fn : JsFunction) (opts : Options)
      (c' : Container) (reqs : List String), fn.require = some reqs →
      2 ≤ fn.params.length →
      Container.register c name fn opts = .ok c' →
      aget c'.registry name =
        some ⟨Registration.rAsyncDeps reqs fn.body, xtendConfig opts⟩) ∧
    (∀ (c : Container) (name : String) (fn : JsFunction) (opts : Options)
      (c' : Container) (reqs : List String), fn.require = some reqs →
      fn.params.length = 1 →
      Container.register c name fn opts = .ok c' →
      aget c'.registry name =
        some ⟨Registration.rAsync1 fn.body, xtendConfig opts⟩) ∧
    (∀ (f : Nat) (c : Container) (name : String) {deps : List String}
      {body : List Value → Except Value Value} {config : Config} {l : LOut}
      {services : List Value},
      (aget c.registry name = some ⟨Registration.rSync deps body, config⟩ ∨
       aget c.registry name = some ⟨Registration.rCtor deps body, config⟩ ∨
       aget c.registry name =
         some ⟨Registration.rAsyncDeps deps body, config⟩) →
      aget c.instances name = none →
      resolveListWith (fun c2 n2 => resolveOneFuel f c2 n2) c deps =
        some l →
      l.res = LRes.ok services →
      ∃ out, Container.resolve (f + 1) c (.one name) = some out ∧
        out.fcalls = l.fcalls ++ [(name, services)]) := by
  refine ⟨?_, ?_, ?_, ?_, ?_, ?_⟩
  · intro fn reqs b hr
    simp [getDependenciesNames, hr]
  · intro c name fn opts c' reqs hr h
    by_cases hn : name = ""
    · simp [Container.registerSync, hn] at h
    · simp [Container.registerSync, hn] at h
      subst h
      rw [addInterfaceMapping_registry]
      rw [aget_aset_self]
      simp [getDependenciesNames, hr]
  · intro c name fn opts c' reqs hr h
    by_cases hn : name = ""
    · simp [Container.registerCtor, hn] at h
    · simp [Container.registerCtor, hn] at h
      subst h
      rw [addInterfaceMapping_registry]
      rw [aget_aset_self]
      simp [getDependenciesNames, hr]
  · intro c name fn opts c' reqs hr h2 h
    by_cases hn : name = ""
    · simp [Container.register, hn] at h
    · have hp0 : ¬ fn.params.length = 0 := by omega
      have hp1 : ¬ fn.params.length = 1 := by omega
      simp [Container.register, hn, hp0, hp1] at h
      subst h
      rw [addInterfaceMapping_registry]
      rw [aget_aset_self]
      simp [getDependenciesNames, hr]
  · intro c name fn opts c' reqs hr h1 h
    by_cases hn : name = ""
    · simp [Container.register, hn] at h
    · have hp0 : ¬ fn.params.length = 0 := by omega
      simp [Container.register, hn, hp0, h1] at h
      subst h
      rw [addInterfaceMapping_registry]
      rw [aget_aset_self]
  · intro f c name deps body config l services hreg hcache hdeps hok
    rcases hreg with hreg | hreg | hreg
    · refine ⟨afterDeps name config l body true, ?_,
        afterDeps_fcalls name config l body true services hok⟩
      simp only [Container.resolve, resolveOneFuel, hreg]
      rw [resolveRegistered_of_no_cache _ _ _ _ hcache]
      simp [invokeFactory, hdeps]
    · refine ⟨afterDeps name config l body true, ?_,
        afterDeps_fcalls name config l body true services hok⟩
      simp only [Container.resolve, resolveOneFuel, hreg]
      rw [resolveRegistered_of_no_cache _ _ _ _ hcache]
      simp [invokeFactory, hdeps]
    · refine ⟨afterDeps name config l body false, ?_,
        afterDeps_fcalls name config l body false services hok⟩
      simp only [Container.resolve, resolveOneFuel, hreg]
      rw [resolveRegistered_of_no_cache _ _ _ _ hcache]
      simp [invokeFactory, hdeps]

/-- Container for the C3 witness: `"a"` registered as the instance 7 and
`"svc"` registered via `registerSync` with parameter names `["x", "y"]` but
`'@require': ['a']`. -/
def requireSyncContainer : Container :=
  orEmpty (Container.registerSync
    (orEmpty (Container.registerInstance Container.empty "a" (.vnum 7)
      ⟨none, none⟩))
    "svc" ⟨["x", "y"], some ["a"], fun args => .ok (.varr args)⟩
    ⟨none, none⟩)

/-- Witness for the amended C3: the `@require` list is used verbatim despite
the differing parameter names, and the factory receives exactly the resolved
value of `"a"`. -/
theorem C3_witness :
    getDependenciesNames
      ⟨["x", "y"], some ["a"], fun args => Except.ok (Value.varr args)⟩
      false = ["a"] ∧
    ∃ out, Container.resolve 2 requireSyncContainer (.one "svc") =
        some out ∧
      out.fcalls = [("svc", [Value.vnum 7])] := by
  constructor
  · exact C3_require_verbatim.1 _ ["a"] false rfl
  · obtain ⟨out, h1, h2⟩ := C3_require_verbatim.2.2.2.2.2 1
      requireSyncContainer "svc" (Or.inl rfl) rfl rfl rfl
    exact ⟨out, h1, h2⟩

/-! ### C10 — frame conditions -/

/-- Replay a list of cache writes over an instance map. -/
def applyWrites (m : List (String × Value)) (ws : List (String × Value)) :
    List (String × Value) :=
  ws.foldl (fun acc p => aset acc p.1 p.2) m

theorem applyWrites_append (m : List (String × Value))
    (w1 w2 : List (String × Value)) :
    applyWrites m (w1 ++ w2) = applyWrites (applyWrites m w1) w2 :=
  List.foldl_append _ _ _ _

/-- Frame property of a single resolution outcome relative to its starting
state: registry and interface index untouched; the instance cache is exactly
the starting cache with the logged writes replayed; and every write is for a
singleton-registered name and coincides with a logged successful completion
of that name. -/
def FrameOk (c : Container) (o : ROut) : Prop :=
  o.c.registry = c.registry ∧ o.c.interfaces = c.interfaces ∧
  o.c.instances = applyWrites c.instances o.writes ∧
  ∀ p ∈ o.writes,
    (∃ rec, aget c.registry p.1 = some rec ∧ rec.config.singleton = true) ∧
    p ∈ o.succs

/-- The same frame property for a list (`async.map`) outcome. -/
def FrameOkL (c : Container) (l : LOut) : Prop :=
  l.c.registry = c.registry ∧ l.c.interfaces = c.interfaces ∧
  l.c.instances = applyWrites c.instances l.writes ∧
  ∀ p ∈ l.writes,
    (∃ rec, aget c.registry p.1 = some rec ∧ rec.config.singleton = true) ∧
    p ∈ l.succs

theorem frame_concat {c cmid cend : Container}
    {w1 w2 s1 s2 : List (String × Value)}
    (h1reg : cmid.registry = c.registry)
    (h1int : cmid.interfaces = c.interfaces)
    (h1ins : cmid.instances = applyWrites c.instances w1)
    (h1w : ∀ p ∈ w1, (∃ rec, aget c.registry p.1 = some rec ∧
      rec.config.singleton = true) ∧ p ∈ s1)
    (h2reg : cend.registry = cmid.registry)
    (h2int : cend.interfaces = cmid.interfaces)
    (h2ins : cend.instances = applyWrites cmid.instances w2)
    (h2w : ∀ p ∈ w2, (∃ rec, aget cmid.registry p.1 = some rec ∧
      rec.config.singleton = true) ∧ p ∈ s2) :
    cend.registry = c.registry ∧ cend.interfaces = c.interfaces ∧
    cend.instances = applyWrites c.instances (w1 ++ w2) ∧
    ∀ p ∈ w1 ++ w2, (∃ rec, aget c.registry p.1 = some rec ∧
      rec.config.singleton = true) ∧ p ∈ s1 ++ s2 := by
  refine ⟨h2reg.trans h1reg, h2int.trans h1int, ?_, ?_⟩
  · rw [applyWrites_append, ← h1ins, h2ins]
  · intro p hp
    rcases List.mem_append.1 hp with hp | hp
    · exact ⟨(h1w p hp).1, List.mem_append_left _ (h1w p hp).2⟩
    · refine ⟨?_, List.mem_append_right _ (h2w p hp).2⟩
      have hr := (h2w p hp).1
      rwa [h1reg] at hr

theorem frame_resolveListWith
    (resOne : Container → String → Option ROut)
    (hres : ∀ c n o, resOne c n = some o → FrameOk c o) :
    ∀ (ns : List String) (c : Container) (l : LOut),
      resolveListWith resOne c ns = some l → FrameOkL c l := by
  intro ns
  induction ns with
  | nil =>
    intro c l h
    simp only [resolveListWith, Option.some.injEq] at h
    subst h
    exact ⟨rfl, rfl, rfl, by simp⟩
  | cons n ns ih =>
    intro c l h
    simp only [resolveListWith] at h
    cases ho : resOne c n with
    | none => rw [ho] at h; simp at h
    | some o =>
      rw [ho] at h
      dsimp only at h
      have hO := hres c n o ho
      cases hr : o.res with
      | thrown e =>
        rw [hr] at h
        simp only [Option.some.injEq] at h
        subst h
        exact ⟨hO.1, hO.2.1, hO.2.2.1, hO.2.2.2⟩
      | err e =>
        rw [hr] at h
        dsimp only at h
        cases hrest : resolveListWith resOne o.c ns with
        | none => rw [hrest] at h; simp at h
        | some rest =>
          rw [hrest] at h
          dsimp only at h
          have hR := ih o.c rest hrest
          cases hr2 : rest.res <;>
            (rw [hr2] at h
             simp only [Option.some.injEq] at h
             subst h
             exact frame_concat hO.1 hO.2.1 hO.2.2.1 hO.2.2.2
               hR.1 hR.2.1 hR.2.2.1 hR.2.2.2)
      | ok v =>
        rw [hr] at h
        dsimp only at h
        cases hrest : resolveListWith resOne o.c ns with
        | none => rw [hrest] at h; simp at h
        | some rest =>
          rw [hrest] at h
          dsimp only at h
          have hR := ih o.c rest hrest
          cases hr2 : rest.res <;>
            (rw [hr2] at h
             simp only [Option.some.injEq] at h
             subst h
             exact frame_concat hO.1 hO.2.1 hO.2.2.1 hO.2.2.2
               hR.1 hR.2.1 hR.2.2.1 hR.2.2.2)

theorem frame_finishOut {c : Container} {name : String} {r : RegRecord}
    (hreg : aget c.registry name = some r) (outc : Except Value Value)
    (fc : List (String × List Value)) :
    FrameOk c ⟨(finishFactory name r.config c outc).1, false,
      (finishFactory name r.config c outc).2.1, fc,
      (finishFactory name r.config c outc).2.2.1,
      (finishFactory name r.config c outc).2.2.2⟩ := by
  unfold finishFactory
  cases outc with
  | error e => exact ⟨rfl, rfl, rfl, by simp⟩
  | ok v =>
    cases hs : r.config.singleton
    · exact ⟨rfl, rfl, rfl, by simp⟩
    · refine ⟨rfl, rfl, rfl, ?_⟩
      intro p hp
      simp at hp
      subst hp
      exact ⟨⟨r, hreg, hs⟩, by simp⟩

theorem frame_afterDeps {c : Container} {name : String} {r : RegRecord}
    (hreg : aget c.registry name = some r) {d : LOut}
    (hd : FrameOkL c d) (body : List Value → Except Value Value)
    (raises : Bool) :
    FrameOk c (afterDeps name r.config d body raises) := by
  unfold afterDeps
  cases hres : d.res with
  | err e => exact ⟨hd.1, hd.2.1, hd.2.2.1, hd.2.2.2⟩
  | thrown e => exact ⟨hd.1, hd.2.1, hd.2.2.1, hd.2.2.2⟩
  | ok services =>
    dsimp only
    cases hb : body services with
    | error e =>
      cases raises <;>
        exact ⟨hd.1, hd.2.1, hd.2.2.1, hd.2.2.2⟩
    | ok v =>
      show FrameOk c ⟨(finishFactory name r.config d.c (.ok v)).1,
        d.deferred, (finishFactory name r.config d.c (.ok v)).2.1,
        d.fcalls ++ [(name, services)],
        d.writes ++ (finishFactory name r.config d.c (.ok v)).2.2.1,
        d.succs ++ (finishFactory name r.config d.c (.ok v)).2.2.2⟩
      have hreg2 : aget d.c.registry name = some r := by rw [hd.1]; exact hreg
      have hfin := frame_finishOut (c := d.c) hreg2 (Except.ok v) []
      exact frame_concat hd.1 hd.2.1 hd.2.2.1 hd.2.2.2
        hfin.1 hfin.2.1 hfin.2.2.1 hfin.2.2.2

theorem frame_invokeFactory
    (resOne : Container → String → Option ROut)
    (hres : ∀ c2 n2 o2, resOne c2 n2 = some o2 → FrameOk c2 o2)
    (c : Container) (name : String) (r : RegRecord)
    (hreg : aget c.registry name = some r) (o : ROut)
    (h : invokeFactory resOne c name r = some o) : FrameOk c o := by
  unfold invokeFactory at h
  cases hf : r.factory with
  | rInstance v =>
    rw [hf] at h
    simp only [Option.some.injEq] at h
    subst h
    exact frame_finishOut hreg (Except.ok v) []
  | rAsync1 body =>
    rw [hf] at h
    simp only [Option.some.injEq] at h
    subst h
    exact frame_finishOut hreg (body []) [(name, [])]
  | rAsyncDeps deps body =>
    rw [hf] at h
    dsimp only at h
    cases hl : resolveListWith resOne c deps with
    | none => rw [hl] at h; simp at h
    | some d =>
      rw [hl] at h
      simp only [Option.map_some', Option.some.injEq] at h
      subst h
      exact frame_afterDeps hreg
        (frame_resolveListWith resOne hres deps c d hl) body false
  | rSync deps body =>
    rw [hf] at h
    dsimp only at h
    cases hl : resolveListWith resOne c deps with
    | none => rw [hl] at h; simp at h
    | some d =>
      rw [hl] at h
      simp only [Option.map_some', Option.some.injEq] at h
      subst h
      exact frame_afterDeps hreg
        (frame_resolveListWith resOne hres deps c d hl) body true
  | rCtor deps body =>
    rw [hf] at h
    dsimp only at h
    cases hl : resolveListWith resOne c deps with
    | none => rw [hl] at h; simp at h
    | some d =>
      rw [hl] at h
      simp only [Option.map_some', Option.some.injEq] at h
      subst h
      exact frame_afterDeps hreg
        (frame_resolveListWith resOne hres deps c d hl) body true

theorem frame_resolveRegistered
    (resOne : Container → String → Option ROut)
    (hres : ∀ c2 n2 o2, resOne c2 n2 = some o2 → FrameOk c2 o2)
    (c : Container) (name : String) (r : RegRecord)
    (hreg : aget c.registry name = some r) (o : ROut)
    (h : resolveRegistered resOne c name r = some o) : FrameOk c o := by
  unfold resolveRegistered at h
  cases hh : cacheHit c name r with
  | some inst =>
    rw [hh] at h
    simp only [Option.some.injEq] at h
    subst h
    exact ⟨rfl, rfl, rfl, by simp⟩
  | none =>
    rw [hh] at h
    exact frame_invokeFactory resOne hres c name r hreg o h

theorem frame_loutToROut {c : Container} {l : LOut} (h : FrameOkL c l) :
    FrameOk c (loutToROut l) :=
  ⟨h.1, h.2.1, h.2.2.1, h.2.2.2⟩

theorem frame_resolveOne :
    ∀ (f : Nat) (c : Container) (n : String) (o : ROut),
      resolveOneFuel f c n = some o → FrameOk c o := by
  intro f
  induction f with
  | zero => intro c n o h; simp [resolveOneFuel] at h
  | succ f ih =>
    intro c n o h
    simp only [resolveOneFuel] at h
    cases hr : aget c.registry n with
    | some r =>
      rw [hr] at h
      exact frame_resolveRegistered _ (fun c2 n2 o2 => ih c2 n2 o2)
        c n r hr o h
    | none =>
      rw [hr] at h
      dsimp only at h
      cases hi : aget c.interfaces n with
      | some impls =>
        rw [hi] at h
        dsimp only at h
        by_cases hlen : impls.length > 0
        · rw [if_pos hlen] at h
          cases hl : resolveListWith
              (fun c2 n2 => resolveOneFuel f c2 n2) c impls with
          | none => rw [hl] at h; simp at h
          | some l =>
            rw [hl] at h
            simp only [Option.map_some', Option.some.injEq] at h
            subst h
            exact frame_loutToROut (frame_resolveListWith _
              (fun c2 n2 o2 => ih c2 n2 o2) impls c l hl)
        · rw [if_neg hlen] at h
          simp only [Option.some.injEq] at h
          subst h
          exact ⟨rfl, rfl, rfl, by simp [unknownOut]⟩
      | none =>
        rw [hi] at h
        simp only [Option.some.injEq] at h
        subst h
        exact ⟨rfl, rfl, rfl, by simp [unknownOut]⟩

/-- C10: `resolve` — for each of its input shapes — never modifies the
registry or the interface index, and its only effect on the instance cache is
replaying its logged writes, each of which is for a singleton-registered name
and equals the value of a successful resolution of that name (a logged
success); conversely, the four registration operations never modify the
instance cache. -/
theorem C10_frame_conditions :
    (∀ (fuel : Nat) (c : Container) (x : NameOrNames) (out : ROut),
      Container.resolve fuel c x = some out →
      out.c.registry = c.registry ∧ out.c.interfaces = c.interfaces ∧
      out.c.instances = applyWrites c.instances out.writes ∧
      ∀ p ∈ out.writes,
        (∃ rec, aget c.registry p.1 = some rec ∧
          rec.config.singleton = true) ∧ p ∈ out.succs) ∧
    (∀ (c : Container) (name : String) (fn : JsFunction) (opts : Options)
      (c' : Container), Container.register c name fn opts = .ok c' →
      c'.instances = c.instances) ∧
    (∀ (c : Container) (name : String) (fn : JsFunction) (opts : Options)
      (c' : Container), Container.registerSync c name fn opts = .ok c' →
      c'.instances = c.instances) ∧
    (∀ (c : Container) (name : String) (fn : JsFunction) (opts : Options)
      (c' : Container), Container.registerCtor c name fn opts = .ok c' →
      c'.instances = c.instances) ∧
    (∀ (c : Container) (name : String) (v : Value) (opts : Options)
      (c' : Container), Container.registerInstance c name v opts = .ok c' →
      c'.instances = c.instances) := by
  refine ⟨?_, ?_, ?_, ?_, ?_⟩
  · intro fuel c x out h
    cases x with
    | one n => exact frame_resolveOne fuel c n out h
    | many ns =>
      simp only [Container.resolve] at h
      cases hl : resolveListWith
          (fun c2 n2 => resolveOneFuel fuel c2 n2) c ns with
      | none => rw [hl] at h; simp at h
      | some l =>
        rw [hl] at h
        simp only [Option.map_some', Option.some.injEq] at h
        subst h
        exact frame_loutToROut (frame_resolveListWith _
          (fun c2 n2 o2 => frame_resolveOne fuel c2 n2 o2) ns c l hl)
  · intro c name fn opts c' h
    by_cases hn : name = ""
    · simp [Container.register, hn] at h
    · by_cases hp : fn.params.length = 0
      · simp [Container.register, hn, hp] at h
      · simp [Container.register, hn, hp] at h
        subst h
        rw [addInterfaceMapping_instances]
  · intro c name fn opts c' h
    by_cases hn : name = ""
    · simp [Container.registerSync, hn] at h
    · simp [Container.registerSync, hn] at h
      subst h
      rw [addInterfaceMapping_instances]
  · intro c name fn opts c' h
    by_cases hn : name = ""
    · simp [Container.registerCtor, hn] at h
    · simp [Container.registerCtor, hn] at h
      subst h
      rw [addInterfaceMapping_instances]
  · intro c name v opts c' h
    by_cases hn : name = ""
    · simp [Container.registerInstance, hn] at h
    · by_cases hv : isUndef v = true
      · simp [Container.registerInstance, hn, hv] at h
      · simp [Container.registerInstance, hn, hv] at h
        subst h
        rw [addInterfaceMapping_instances]

/-- Container for the C10 witness. -/
def frameWitnessContainer : Container :=
  orEmpty (Container.registerSync Container.empty "s"
    ⟨[], none, fun _ => .ok (.vnum 9)⟩ ⟨none, none⟩)

/-- Witness for C10 at a concrete singleton resolution. -/
theorem C10_witness :
    ∃ out, Container.resolve 1 frameWitnessContainer (.one "s") = some out ∧
      out.c.registry = frameWitnessContainer.registry ∧
      out.c.interfaces = frameWitnessContainer.interfaces ∧
      out.c.instances =
        applyWrites frameWitnessContainer.instances out.writes := by
  obtain ⟨h1, h2, h3, _⟩ := C10_frame_conditions.1 1 frameWitnessContainer
    (.one "s") _ rfl
  exact ⟨_, rfl, h1, h2, h3⟩

end Uqbar
